import Mathlib

/-!
Shallow embedding of tp_control's `CoreInterface` (CoreInterface.cpp).

The registry keeps a two-level map from type key to name key to a
`CoreInterfaceHandle`; each stored handle owns a heap-allocated
`CoreInterfacePayloadPrivate` which in turn owns an optional
`CoreInterfaceData*`.  We model:

* `tp_utils::StringID` as a wrapped `String`; the default (invalid)
  StringID corresponds to the empty string, `toString` returns the
  source string.
* `CoreInterfaceData*` pointers as `Option Nat` (a heap object id, or
  the null pointer `none`); the payload objects as entries of an
  explicit heap (`payloadHeap`), addressed by `Nat` ids allocated by a
  counter, so pointer identity is id equality.
* callbacks as `Nat` listener ids kept in registration order; firing a
  notification is recorded as one trace `Event` per invoked listener.
* `delete` of a data pointer as a `destroyData` trace event (`delete
  nullptr` produces no event).

Each mutating member function becomes a function from the registry
state to the new state paired with the list of trace events emitted
during the call, in order.
-/

namespace TpControl

/-- Interned string key (`tp_utils::StringID`): modelled by its source
string; the default-constructed (invalid) StringID is the empty string. -/
structure StringID where
  str : String
deriving DecidableEq

/-- `StringID::isValid()`: the default / empty id is invalid. -/
def StringID.isValid (k : StringID) : Bool := k.str != ""

/-- The default-constructed, invalid StringID. -/
def StringID.invalid : StringID := ⟨""⟩

/-- `StringID::toString()`: the source string (empty for the invalid id). -/
def StringID.toString (k : StringID) : String := k.str

/-- Opaque payload object identity (`CoreInterfaceData*` target). -/
abbrev CoreInterfaceData := Nat

/-- `CoreInterfaceHandle`: two keys plus a pointer to the slot's
`CoreInterfacePayloadPrivate` (`none` = nullptr = no slot). -/
structure CoreInterfaceHandle where
  m_typeID : StringID
  m_nameID : StringID
  m_payload : Option Nat
deriving DecidableEq

/-- The default-constructed handle `CoreInterfaceHandle()`: invalid keys,
null payload pointer. -/
def nullHandle : CoreInterfaceHandle := ⟨StringID.invalid, StringID.invalid, none⟩

/-- `CoreInterfaceHandle::isValid()`: both keys valid (the payload pointer
is not consulted by the source). -/
def CoreInterfaceHandle.isValid (h : CoreInterfaceHandle) : Bool :=
  h.m_typeID.isValid && h.m_nameID.isValid

/-- `CoreInterfaceHandle::operator==`: compares the payload pointers only. -/
def CoreInterfaceHandle.beq (a b : CoreInterfaceHandle) : Bool :=
  a.m_payload == b.m_payload

/-- Trace events: one entry per listener invocation, plus payload
destructions (`delete`). -/
inductive Event where
  | channelListChanged (listener : Nat)
  | channelChanged (listener : Nat) (typeID nameID : StringID)
      (data : Option CoreInterfaceData)
  | signalFired (listener : Nat) (typeID : StringID)
      (data : Option CoreInterfaceData)
  | destroyData (data : CoreInterfaceData)
deriving DecidableEq

/-- `delete data` on a nullable `CoreInterfaceData*`: destroys the object
when the pointer is non-null. -/
def deleteData : Option CoreInterfaceData → List Event
  | none => []
  | some d => [Event.destroyData d]

/-- Association-list lookup with decidable key equality (the lookup half
of `std::unordered_map` access). -/
def mapLookup {α β : Type} [DecidableEq α] : List (α × β) → α → Option β
  | [], _ => none
  | (k', v) :: rest, k => if k = k' then some v else mapLookup rest k

/-- Lookup with a default, as `operator[]` reads an entry (the default is
what value-initialization would produce). -/
def mapGetD {α β : Type} [DecidableEq α] (m : List (α × β)) (k : α) (dflt : β) : β :=
  (mapLookup m k).getD dflt

/-- Store through `operator[]`: replace the entry for `k`, or append a new
one. -/
def mapSet {α β : Type} [DecidableEq α] : List (α × β) → α → β → List (α × β)
  | [], k, v => [(k, v)]
  | (k', v') :: rest, k, v =>
      if k = k' then (k, v) :: rest else (k', v') :: mapSet rest k v

/-- `unordered_map::erase(key)`: drop the entry for `k` when present. -/
def mapEraseKey {α β : Type} [DecidableEq α] : List (α × β) → α → List (α × β)
  | [], _ => []
  | (k', v) :: rest, k =>
      if k = k' then rest else (k', v) :: mapEraseKey rest k

/-- `tpRemoveOne`: remove the first occurrence of `a` from the list. -/
def tpRemoveOne {α : Type} [DecidableEq α] : List α → α → List α
  | [], _ => []
  | x :: rest, a => if a = x then rest else x :: tpRemoveOne rest a

/-- `CoreInterface::Private`: the registry state.  `channels` is the
two-level slot map; `payloadHeap` maps each allocated
`CoreInterfacePayloadPrivate` id to the `CoreInterfaceData*` it owns;
`nextPayload` is the allocation counter; the three callback containers
keep listener ids in registration order. -/
structure CoreInterface where
  channels : List (StringID × List (StringID × CoreInterfaceHandle))
  payloadHeap : List (Nat × Option CoreInterfaceData)
  nextPayload : Nat
  channelChangeCallbacks : List Nat
  channelListChangedCallbacks : List Nat
  signalCallbacks : List (StringID × List Nat)
deriving DecidableEq

/-- `CoreInterface::CoreInterface()`: empty registry. -/
def CoreInterface.init : CoreInterface := ⟨[], [], 0, [], [], []⟩

/-- `CoreInterfaceHandle::data()`: `m_payload ? m_payload->data : nullptr`;
the dereference reads the heap cell of this registry. -/
def CoreInterfaceHandle.data (h : CoreInterfaceHandle) (s : CoreInterface) :
    Option CoreInterfaceData :=
  match h.m_payload with
  | none => none
  | some p => mapGetD s.payloadHeap p none

/-- `CoreInterface::handle(typeID, nameID)`: invalid keys give the null
handle untouched state; otherwise `channels[typeID][nameID]` is looked up
(value-initialized when absent) and, when its payload pointer is null, a
payload is allocated, the keys stored, and the channel-list-changed
notification fired to every registered listener in order. -/
def CoreInterface.handle (s : CoreInterface) (typeID nameID : StringID) :
    CoreInterfaceHandle × CoreInterface × List Event :=
  if typeID.isValid && nameID.isValid then
    let inner := mapGetD s.channels typeID []
    let localHandle := mapGetD inner nameID nullHandle
    match localHandle.m_payload with
    | some _ => (localHandle, s, [])
    | none =>
        let p := s.nextPayload
        let created : CoreInterfaceHandle := ⟨typeID, nameID, some p⟩
        (created,
         { s with
            channels := mapSet s.channels typeID (mapSet inner nameID created),
            payloadHeap := (p, none) :: s.payloadHeap,
            nextPayload := p + 1 },
         s.channelListChangedCallbacks.map Event.channelListChanged)
  else
    (nullHandle, s, [])

/-- `CoreInterface::setChannelData(handle, data)`: null payload pointer
deletes `data` and returns; otherwise the slot's current data is deleted,
`data` installed, and the channel-changed notification fired with
`(m_typeID, m_nameID, m_payload->data)` to every registered listener in
order. -/
def CoreInterface.setChannelData (s : CoreInterface) (handle : CoreInterfaceHandle)
    (data : Option CoreInterfaceData) : CoreInterface × List Event :=
  match handle.m_payload with
  | none => (s, deleteData data)
  | some p =>
      let old := mapGetD s.payloadHeap p none
      ({ s with payloadHeap := mapSet s.payloadHeap p data },
       deleteData old ++
         s.channelChangeCallbacks.map
           (fun c => Event.channelChanged c handle.m_typeID handle.m_nameID data))

/-- `CoreInterface::sendSignal(typeID, data)`: invoke every listener in
`signalCallbacks[typeID]` in order (`operator[]` value-initializes an
empty vector for an absent key). -/
def CoreInterface.sendSignal (s : CoreInterface) (typeID : StringID)
    (data : Option CoreInterfaceData) : CoreInterface × List Event :=
  let callbacks := mapGetD s.signalCallbacks typeID []
  ({ s with signalCallbacks := mapSet s.signalCallbacks typeID callbacks },
   callbacks.map (fun c => Event.signalFired c typeID data))

/-- `registerCallback(const ChannelListChangedCallback*)`. -/
def CoreInterface.registerListChangedCallback (s : CoreInterface) (c : Nat) :
    CoreInterface :=
  { s with channelListChangedCallbacks := s.channelListChangedCallbacks ++ [c] }

/-- `unregisterCallback(const ChannelListChangedCallback*)`. -/
def CoreInterface.unregisterListChangedCallback (s : CoreInterface) (c : Nat) :
    CoreInterface :=
  { s with channelListChangedCallbacks := tpRemoveOne s.channelListChangedCallbacks c }

/-- `registerCallback(const ChannelChangedCallback*)`. -/
def CoreInterface.registerChannelChangedCallback (s : CoreInterface) (c : Nat) :
    CoreInterface :=
  { s with channelChangeCallbacks := s.channelChangeCallbacks ++ [c] }

/-- `unregisterCallback(const ChannelChangedCallback*)`. -/
def CoreInterface.unregisterChannelChangedCallback (s : CoreInterface) (c : Nat) :
    CoreInterface :=
  { s with channelChangeCallbacks := tpRemoveOne s.channelChangeCallbacks c }

/-- `registerCallback(const SignalCallback*, typeID)`: push onto
`signalCallbacks[typeID]`. -/
def CoreInterface.registerSignalCallback (s : CoreInterface) (c : Nat)
    (typeID : StringID) : CoreInterface :=
  { s with signalCallbacks :=
      mapSet s.signalCallbacks typeID (mapGetD s.signalCallbacks typeID [] ++ [c]) }

/-- `unregisterCallback(const SignalCallback*, typeID)`: remove one
occurrence; erase the map entry when the vector becomes empty. -/
def CoreInterface.unregisterSignalCallback (s : CoreInterface) (c : Nat)
    (typeID : StringID) : CoreInterface :=
  let callbacks := tpRemoveOne (mapGetD s.signalCallbacks typeID []) c
  if callbacks.isEmpty then
    { s with signalCallbacks := mapEraseKey s.signalCallbacks typeID }
  else
    { s with signalCallbacks := mapSet s.signalCallbacks typeID callbacks }

/-- The persisted document shape `{"typeID": ..., "nameID": ...}` produced
by `saveState` (via nlohmann::json) and consumed by `loadState` (via
`TPJSONString`). -/
structure JsonDoc where
  typeID : String
  nameID : String
deriving DecidableEq

/-- `CoreInterfaceHandle::saveState()`: store `toString` of both keys. -/
def CoreInterfaceHandle.saveState (h : CoreInterfaceHandle) : JsonDoc :=
  ⟨h.m_typeID.toString, h.m_nameID.toString⟩

/-- `CoreInterfaceHandle::loadState(j, coreInterface)`: re-resolve the
persisted pair through `handle()`; the result is the assigned handle
together with the registry's new state and events. -/
def loadState (j : JsonDoc) (s : CoreInterface) :
    CoreInterfaceHandle × CoreInterface × List Event :=
  s.handle ⟨j.typeID⟩ ⟨j.nameID⟩

/-- One public mutating operation of the interface, for quantifying over
arbitrary interleaved usage. -/
inductive Op where
  | opHandle (typeID nameID : StringID)
  | opSetChannelData (h : CoreInterfaceHandle) (data : Option CoreInterfaceData)
  | opSendSignal (typeID : StringID) (data : Option CoreInterfaceData)
  | opRegisterListChanged (c : Nat)
  | opUnregisterListChanged (c : Nat)
  | opRegisterChannelChanged (c : Nat)
  | opUnregisterChannelChanged (c : Nat)
  | opRegisterSignal (c : Nat) (typeID : StringID)
  | opUnregisterSignal (c : Nat) (typeID : StringID)
  | opLoadState (j : JsonDoc)

/-- State transition of one operation (events discarded). -/
def step (s : CoreInterface) : Op → CoreInterface
  | .opHandle t n => (s.handle t n).2.1
  | .opSetChannelData h d => (s.setChannelData h d).1
  | .opSendSignal t d => (s.sendSignal t d).1
  | .opRegisterListChanged c => s.registerListChangedCallback c
  | .opUnregisterListChanged c => s.unregisterListChangedCallback c
  | .opRegisterChannelChanged c => s.registerChannelChangedCallback c
  | .opUnregisterChannelChanged c => s.unregisterChannelChangedCallback c
  | .opRegisterSignal c t => s.registerSignalCallback c t
  | .opUnregisterSignal c t => s.unregisterSignalCallback c t
  | .opLoadState j => (loadState j s).2.1

/-- Run a sequence of operations. -/
def run (s : CoreInterface) (ops : List Op) : CoreInterface := ops.foldl step s

/-- The slot map entry for a (type, name) pair, when one exists. -/
def lookupChannel (s : CoreInterface) (t n : StringID) : Option CoreInterfaceHandle :=
  match mapLookup s.channels t with
  | none => none
  | some inner => mapLookup inner n

/-- The listener list registered for a signal type (empty when absent). -/
def lookupSig (s : CoreInterface) (t : StringID) : List Nat :=
  mapGetD s.signalCallbacks t []

/-- Whether an operation is a `setChannelData` through a handle
referencing the same slot as `h` (same payload pointer, the source's
`operator==`) — the only operation that can install data into that
slot. -/
def writesSlotOf (h : CoreInterfaceHandle) : Op → Bool
  | Op.opSetChannelData h2 _ => h2.beq h
  | _ => false

/-! Basic lemmas about the association-list map operations. -/

theorem mapLookup_mapSet {α β : Type} [DecidableEq α] (m : List (α × β)) (k k' : α) (v : β) :
    mapLookup (mapSet m k v) k' = if k' = k then some v else mapLookup m k' := by
  induction m with
  | nil => simp [mapSet, mapLookup]
  | cons x rest ih =>
      obtain ⟨k0, v0⟩ := x
      by_cases hk : k = k0
      · subst hk
        by_cases hk' : k' = k
        · simp [mapSet, mapLookup, hk']
        · simp [mapSet, mapLookup, hk']
      · have hk0 : ¬(k0 = k) := fun hh => hk hh.symm
        by_cases hk' : k' = k0
        · subst hk'
          simp [mapSet, mapLookup, hk, hk0]
        · simp [mapSet, mapLookup, hk, hk', ih]

theorem mapGetD_mapSet {α β : Type} [DecidableEq α] (m : List (α × β)) (k k' : α)
    (v d : β) :
    mapGetD (mapSet m k v) k' d = if k' = k then v else mapGetD m k' d := by
  by_cases hk : k' = k <;> simp [mapGetD, mapLookup_mapSet, hk]

theorem mem_mapSet {α β : Type} [DecidableEq α] (m : List (α × β)) (k : α) (v : β)
    (a : α × β) (ha : a ∈ mapSet m k v) : a = (k, v) ∨ a ∈ m := by
  induction m with
  | nil => simpa [mapSet] using ha
  | cons x rest ih =>
      obtain ⟨k0, v0⟩ := x
      by_cases hk : k = k0
      · subst hk
        simp only [mapSet, if_pos rfl] at ha
        rcases List.mem_cons.mp ha with h1 | h1
        · exact Or.inl h1
        · exact Or.inr (List.mem_cons.mpr (Or.inr h1))
      · simp only [mapSet, if_neg hk] at ha
        rcases List.mem_cons.mp ha with h1 | h1
        · exact Or.inr (List.mem_cons.mpr (Or.inl h1))
        · rcases ih h1 with h2 | h2
          · exact Or.inl h2
          · exact Or.inr (List.mem_cons.mpr (Or.inr h2))

/-! Characterization of `CoreInterface.handle` by branch. -/

/-- When either key is invalid, `handle` is the identity returning the
null handle and firing nothing. -/
theorem handle_invalid_branch (s : CoreInterface) (t n : StringID)
    (h : (t.isValid && n.isValid) = false) :
    s.handle t n = (nullHandle, s, []) := by
  simp [CoreInterface.handle, h]

/-- When a slot with an allocated payload exists for the pair, `handle`
returns it, changes nothing and fires nothing. -/
theorem handle_exists_branch (s : CoreInterface) (t n : StringID)
    (h : CoreInterfaceHandle) (p : Nat)
    (ht : t.isValid = true) (hn : n.isValid = true)
    (hl : lookupChannel s t n = some h) (hp : h.m_payload = some p) :
    s.handle t n = (h, s, []) := by
  unfold lookupChannel at hl
  rcases hi : mapLookup s.channels t with _ | inner
  · rw [hi] at hl
    simp at hl
  · rw [hi] at hl
    have hl' : mapLookup inner n = some h := hl
    simp [CoreInterface.handle, ht, hn, mapGetD, hi, hl', hp]

/-- When no slot exists for a valid pair, `handle` allocates a payload,
stores the keys, and fires the list-changed notification to every
registered listener in registration order. -/
theorem handle_create_branch (s : CoreInterface) (t n : StringID)
    (ht : t.isValid = true) (hn : n.isValid = true)
    (hl : lookupChannel s t n = none) :
    s.handle t n =
      (⟨t, n, some s.nextPayload⟩,
       { s with
          channels := mapSet s.channels t
            (mapSet (mapGetD s.channels t []) n ⟨t, n, some s.nextPayload⟩),
          payloadHeap := (s.nextPayload, none) :: s.payloadHeap,
          nextPayload := s.nextPayload + 1 },
       s.channelListChangedCallbacks.map Event.channelListChanged) := by
  unfold lookupChannel at hl
  rcases hi : mapLookup s.channels t with _ | inner
  · simp [CoreInterface.handle, ht, hn, mapGetD, hi, mapLookup, nullHandle]
  · rw [hi] at hl
    have hl' : mapLookup inner n = none := hl
    simp [CoreInterface.handle, ht, hn, mapGetD, hi, hl', nullHandle]

/-- When the stored entry for a valid pair exists but its payload pointer
is null (possible only for states not built by the interface), `handle`
overwrites it like a fresh creation. -/
theorem handle_overwrite_branch (s : CoreInterface) (t n : StringID)
    (h2 : CoreInterfaceHandle)
    (ht : t.isValid = true) (hn : n.isValid = true)
    (hl : lookupChannel s t n = some h2) (hp : h2.m_payload = none) :
    s.handle t n =
      (⟨t, n, some s.nextPayload⟩,
       { s with
          channels := mapSet s.channels t
            (mapSet (mapGetD s.channels t []) n ⟨t, n, some s.nextPayload⟩),
          payloadHeap := (s.nextPayload, none) :: s.payloadHeap,
          nextPayload := s.nextPayload + 1 },
       s.channelListChangedCallbacks.map Event.channelListChanged) := by
  unfold lookupChannel at hl
  rcases hi : mapLookup s.channels t with _ | inner
  · rw [hi] at hl
    simp at hl
  · rw [hi] at hl
    have hl' : mapLookup inner n = some h2 := hl
    simp [CoreInterface.handle, ht, hn, mapGetD, hi, hl', hp]

/-- The slot map entry of a pair freshly written through the two-level
`operator[]` store is the written handle. -/
theorem lookupChannel_set_shape (s : CoreInterface) (t n : StringID)
    (hp : List (Nat × Option CoreInterfaceData)) (np : Nat)
    (newh : CoreInterfaceHandle) :
    lookupChannel
      { s with
         channels := mapSet s.channels t
           (mapSet (mapGetD s.channels t []) n newh),
         payloadHeap := hp, nextPayload := np } t n = some newh := by
  simp [lookupChannel, mapLookup_mapSet]

/-- The two-level `operator[]` store for one pair leaves every other
pair's slot map entry unchanged. -/
theorem lookupChannel_set_other (s : CoreInterface) (t' n' t n : StringID)
    (hp : List (Nat × Option CoreInterfaceData)) (np : Nat)
    (newh h : CoreInterfaceHandle)
    (hl : lookupChannel s t n = some h) (hne : ¬(t = t' ∧ n = n')) :
    lookupChannel
      { s with
         channels := mapSet s.channels t'
           (mapSet (mapGetD s.channels t' []) n' newh),
         payloadHeap := hp, nextPayload := np } t n = some h := by
  unfold lookupChannel at hl ⊢
  rcases hi : mapLookup s.channels t with _ | inner
  · rw [hi] at hl
    simp at hl
  · rw [hi] at hl
    by_cases htt : t = t'
    · subst htt
      have hinner : mapGetD s.channels t [] = inner := by simp [mapGetD, hi]
      have hnn : ¬(n = n') := fun hnn => hne ⟨rfl, hnn⟩
      rw [mapLookup_mapSet, if_pos rfl, hinner]
      have hgoal : mapLookup (mapSet inner n' newh) n = some h := by
        rw [mapLookup_mapSet, if_neg hnn]
        exact hl
      exact hgoal
    · rw [mapLookup_mapSet, if_neg htt, hi]
      exact hl

/-- A registered slot map entry with an allocated payload survives any
later `handle` call. -/
theorem lookupChannel_handle_preserved (s : CoreInterface) (t' n' t n : StringID)
    (h : CoreInterfaceHandle) (p : Nat)
    (hl : lookupChannel s t n = some h) (hp : h.m_payload = some p) :
    lookupChannel (s.handle t' n').2.1 t n = some h := by
  by_cases hv : (t'.isValid && n'.isValid) = true
  · obtain ⟨ht', hn'⟩ := Bool.and_eq_true_iff.mp hv
    by_cases hpair : t = t' ∧ n = n'
    · obtain ⟨h1, h2⟩ := hpair
      subst h1
      subst h2
      rw [handle_exists_branch s t n h p ht' hn' hl hp]
      exact hl
    · rcases hl2 : lookupChannel s t' n' with _ | h2
      · rw [handle_create_branch s t' n' ht' hn' hl2]
        exact lookupChannel_set_other s t' n' t n _ _ _ h hl hpair
      · rcases hp2 : h2.m_payload with _ | p2
        · rw [handle_overwrite_branch s t' n' h2 ht' hn' hl2 hp2]
          exact lookupChannel_set_other s t' n' t n _ _ _ h hl hpair
        · rw [handle_exists_branch s t' n' h2 p2 ht' hn' hl2 hp2]
          exact hl
  · rw [handle_invalid_branch s t' n' (by simpa using hv)]
    exact hl

/-- A registered slot map entry with an allocated payload survives every
public operation. -/
theorem lookupChannel_step_preserved (s : CoreInterface) (op : Op) (t n : StringID)
    (h : CoreInterfaceHandle) (p : Nat)
    (hl : lookupChannel s t n = some h) (hp : h.m_payload = some p) :
    lookupChannel (step s op) t n = some h := by
  cases op with
  | opHandle t' n' => exact lookupChannel_handle_preserved s t' n' t n h p hl hp
  | opLoadState j => exact lookupChannel_handle_preserved s _ _ t n h p hl hp
  | opSetChannelData h' d =>
      rcases hm : h'.m_payload with _ | p'
      · simpa [step, CoreInterface.setChannelData, hm] using hl
      · simpa [step, CoreInterface.setChannelData, hm, lookupChannel] using hl
  | opSendSignal t' d =>
      simpa [step, CoreInterface.sendSignal, lookupChannel] using hl
  | opRegisterListChanged c =>
      simpa [step, CoreInterface.registerListChangedCallback, lookupChannel] using hl
  | opUnregisterListChanged c =>
      simpa [step, CoreInterface.unregisterListChangedCallback, lookupChannel] using hl
  | opRegisterChannelChanged c =>
      simpa [step, CoreInterface.registerChannelChangedCallback, lookupChannel] using hl
  | opUnregisterChannelChanged c =>
      simpa [step, CoreInterface.unregisterChannelChangedCallback, lookupChannel] using hl
  | opRegisterSignal c t' =>
      simpa [step, CoreInterface.registerSignalCallback, lookupChannel] using hl
  | opUnregisterSignal c t' =>
      by_cases he : (tpRemoveOne (mapGetD s.signalCallbacks t' []) c).isEmpty
      · simpa [step, CoreInterface.unregisterSignalCallback, he, lookupChannel] using hl
      · simpa [step, CoreInterface.unregisterSignalCallback, he, lookupChannel] using hl

/-- A registered slot map entry with an allocated payload survives any
sequence of public operations. -/
theorem lookupChannel_run_preserved (s : CoreInterface) (ops : List Op)
    (t n : StringID) (h : CoreInterfaceHandle) (p : Nat)
    (hl : lookupChannel s t n = some h) (hp : h.m_payload = some p) :
    lookupChannel (run s ops) t n = some h := by
  induction ops generalizing s with
  | nil => exact hl
  | cons op rest ih =>
      exact ih (step s op) (lookupChannel_step_preserved s op t n h p hl hp)

/-- After any `handle` call on valid keys, the returned handle has an
allocated payload and is exactly the slot map entry for the pair. -/
theorem handle_result_registered (s : CoreInterface) (t n : StringID)
    (ht : t.isValid = true) (hn : n.isValid = true) :
    ∃ p, (s.handle t n).1.m_payload = some p ∧
      lookupChannel (s.handle t n).2.1 t n = some (s.handle t n).1 := by
  rcases hl : lookupChannel s t n with _ | h2
  · rw [handle_create_branch s t n ht hn hl]
    exact ⟨s.nextPayload, rfl, lookupChannel_set_shape s t n _ _ _⟩
  · rcases hp2 : h2.m_payload with _ | p2
    · rw [handle_overwrite_branch s t n h2 ht hn hl hp2]
      exact ⟨s.nextPayload, rfl, lookupChannel_set_shape s t n _ _ _⟩
    · rw [handle_exists_branch s t n h2 p2 ht hn hl hp2]
      exact ⟨p2, hp2, hl⟩

/-- C1: for every registry and valid pair (t, n), at most one slot is
ever created for the pair: any `handle(t, n)` call after the first —
across an arbitrary sequence of interleaved public operations — returns
the very same handle value (so it compares equal under `operator==`),
leaves the state untouched and fires nothing; the channel-list-changed
notification is fired (once, to each registered listener in registration
order, before the call returns) only by the call that creates the slot. -/
theorem c1_handle_unique_slot (s : CoreInterface) (t n : StringID) (ops : List Op)
    (ht : t.isValid = true) (hn : n.isValid = true) :
    ((run (s.handle t n).2.1 ops).handle t n).1 = (s.handle t n).1 ∧
    (s.handle t n).1.beq ((run (s.handle t n).2.1 ops).handle t n).1 = true ∧
    ((run (s.handle t n).2.1 ops).handle t n).2.1 = run (s.handle t n).2.1 ops ∧
    ((run (s.handle t n).2.1 ops).handle t n).2.2 = [] ∧
    (lookupChannel s t n = none →
      (s.handle t n).2.2 = s.channelListChangedCallbacks.map Event.channelListChanged) := by
  obtain ⟨p, hp, hreg⟩ := handle_result_registered s t n ht hn
  have hrun := lookupChannel_run_preserved _ ops t n _ p hreg hp
  have hsecond := handle_exists_branch _ t n _ p ht hn hrun hp
  refine ⟨?_, ?_, ?_, ?_, ?_⟩
  · rw [hsecond]
  · rw [hsecond]
    simp [CoreInterfaceHandle.beq]
  · rw [hsecond]
  · rw [hsecond]
  · intro hl
    rw [handle_create_branch s t n ht hn hl]

/-- Witness for C1 at a concrete registry, pair and operation sequence. -/
theorem c1_handle_unique_slot_witness :
    ((run (CoreInterface.init.handle ⟨"Float"⟩ ⟨"Opacity"⟩).2.1
        [Op.opRegisterListChanged 0, Op.opHandle ⟨"Int"⟩ ⟨"Frame"⟩]).handle
          ⟨"Float"⟩ ⟨"Opacity"⟩).1 =
      (CoreInterface.init.handle ⟨"Float"⟩ ⟨"Opacity"⟩).1 :=
  (c1_handle_unique_slot CoreInterface.init ⟨"Float"⟩ ⟨"Opacity"⟩
    [Op.opRegisterListChanged 0, Op.opHandle ⟨"Int"⟩ ⟨"Frame"⟩]
    (by decide) (by decide)).1

/-- C3: handle equality compares slot identity (the payload pointer)
only, ignoring the stored keys; two handles independently obtained for
the same valid pair from the same registry compare equal, and two
handles referencing no slot compare equal whatever their keys. -/
theorem c3_handle_equality (s : CoreInterface) (t n : StringID)
    (ht : t.isValid = true) (hn : n.isValid = true) :
    (∀ h1 h2 : CoreInterfaceHandle, h1.beq h2 = true ↔ h1.m_payload = h2.m_payload) ∧
    (∀ t1 n1 t2 n2 : StringID,
      (CoreInterfaceHandle.mk t1 n1 none).beq ⟨t2, n2, none⟩ = true) ∧
    (s.handle t n).1.beq (((s.handle t n).2.1).handle t n).1 = true := by
  refine ⟨?_, ?_, ?_⟩
  · intro h1 h2
    simp [CoreInterfaceHandle.beq]
  · intro t1 n1 t2 n2
    simp [CoreInterfaceHandle.beq]
  · obtain ⟨p, hp, hreg⟩ := handle_result_registered s t n ht hn
    have hsecond := handle_exists_branch _ t n _ p ht hn hreg hp
    rw [hsecond]
    simp [CoreInterfaceHandle.beq]

/-- Witness for C3 at a concrete registry and pair. -/
theorem c3_handle_equality_witness :
    (CoreInterface.init.handle ⟨"Float"⟩ ⟨"Opacity"⟩).1.beq
      (((CoreInterface.init.handle ⟨"Float"⟩ ⟨"Opacity"⟩).2.1).handle
        ⟨"Float"⟩ ⟨"Opacity"⟩).1 = true :=
  (c3_handle_equality CoreInterface.init ⟨"Float"⟩ ⟨"Opacity"⟩
    (by decide) (by decide)).2.2

/-- C5: `handle` on an invalid key returns the invalid null handle,
leaves the whole registry state (channel list included) unchanged, and
fires no notification. -/
theorem c5_handle_invalid_key (s : CoreInterface) (t n : StringID)
    (hinv : t.isValid = false ∨ n.isValid = false) :
    s.handle t n = (nullHandle, s, []) ∧ nullHandle.isValid = false := by
  refine ⟨?_, by decide⟩
  apply handle_invalid_branch
  rcases hinv with h | h <;> simp [h]

/-- Witness for C5: an invalid type key on the fresh registry. -/
theorem c5_handle_invalid_key_witness :
    CoreInterface.init.handle StringID.invalid ⟨"Opacity"⟩ =
      (nullHandle, CoreInterface.init, []) ∧ nullHandle.isValid = false :=
  c5_handle_invalid_key CoreInterface.init StringID.invalid ⟨"Opacity"⟩
    (Or.inl (by decide))

/-- C6: `setChannelData` through a handle referencing no slot destroys
the offered payload, fires nothing, and leaves the registry state
entirely unchanged — a silent no-op. -/
theorem c6_setChannelData_invalid (s : CoreInterface) (h : CoreInterfaceHandle)
    (d : CoreInterfaceData) (hp : h.m_payload = none) :
    s.setChannelData h (some d) = (s, [Event.destroyData d]) := by
  simp [CoreInterface.setChannelData, hp, deleteData]

/-- Witness for C6: writing payload 7 through the null handle. -/
theorem c6_setChannelData_invalid_witness :
    CoreInterface.init.setChannelData nullHandle (some 7) =
      (CoreInterface.init, [Event.destroyData 7]) :=
  c6_setChannelData_invalid CoreInterface.init nullHandle 7 rfl

/-- C7: `sendSignal` synchronously invokes exactly the listeners
registered for the type key, each once, in registration order, all
observing the same payload; with zero registered listeners nothing is
invoked; no slot or channel state (nor any other listener list) is
touched. -/
theorem c7_sendSignal (s : CoreInterface) (t : StringID)
    (d : Option CoreInterfaceData) :
    (s.sendSignal t d).2 = (lookupSig s t).map (fun c => Event.signalFired c t d) ∧
    (s.sendSignal t d).1.channels = s.channels ∧
    (s.sendSignal t d).1.payloadHeap = s.payloadHeap ∧
    (s.sendSignal t d).1.channelChangeCallbacks = s.channelChangeCallbacks ∧
    (s.sendSignal t d).1.channelListChangedCallbacks = s.channelListChangedCallbacks ∧
    (∀ t', lookupSig (s.sendSignal t d).1 t' = lookupSig s t') ∧
    (lookupSig s t = [] → (s.sendSignal t d).2 = []) := by
  refine ⟨rfl, rfl, rfl, rfl, rfl, ?_, ?_⟩
  · intro t'
    by_cases htt : t' = t <;>
      simp [CoreInterface.sendSignal, lookupSig, mapGetD_mapSet, htt]
  · intro h0
    have h1 : (s.sendSignal t d).2 =
        (lookupSig s t).map (fun c => Event.signalFired c t d) := rfl
    rw [h1, h0]
    rfl

/-- Witness for C7: a signal with zero registered listeners on the fresh
registry invokes nothing. -/
theorem c7_sendSignal_witness :
    lookupSig CoreInterface.init ⟨"Save"⟩ = [] ∧
      (CoreInterface.init.sendSignal ⟨"Save"⟩ (some 3)).2 = [] :=
  ⟨rfl, (c7_sendSignal CoreInterface.init ⟨"Save"⟩ (some 3)).2.2.2.2.2.2 rfl⟩

/-- C2: `setChannelData` through a handle referencing an allocated slot
destroys the slot's previous data (when present), installs the new data
so `data()` reads it afterwards, and fires exactly one channel-changed
notification carrying (typeID, nameID, newData) to every registered
channel-changed listener in registration order, each observing only the
new value; the channel list is untouched. -/
theorem c2_setChannelData_valid (s : CoreInterface) (h : CoreInterfaceHandle)
    (p : Nat) (d : CoreInterfaceData)
    (hp : h.m_payload = some p)
    (_halloc : (mapLookup s.payloadHeap p).isSome = true) :
    h.data (s.setChannelData h (some d)).1 = some d ∧
    (s.setChannelData h (some d)).2 =
      deleteData (mapGetD s.payloadHeap p none) ++
        s.channelChangeCallbacks.map
          (fun c => Event.channelChanged c h.m_typeID h.m_nameID (some d)) ∧
    (s.setChannelData h (some d)).1.channels = s.channels := by
  refine ⟨?_, ?_, ?_⟩
  · simp [CoreInterface.setChannelData, hp, CoreInterfaceHandle.data, mapGetD_mapSet]
  · simp [CoreInterface.setChannelData, hp]
  · simp [CoreInterface.setChannelData, hp]

/-- Witness for C2: first write of payload 5 into a freshly created
channel of the fresh registry. -/
theorem c2_setChannelData_valid_witness :
    (CoreInterface.init.handle ⟨"Float"⟩ ⟨"Opacity"⟩).1.data
      (((CoreInterface.init.handle ⟨"Float"⟩ ⟨"Opacity"⟩).2.1).setChannelData
        (CoreInterface.init.handle ⟨"Float"⟩ ⟨"Opacity"⟩).1 (some 5)).1 = some 5 :=
  (c2_setChannelData_valid (CoreInterface.init.handle ⟨"Float"⟩ ⟨"Opacity"⟩).2.1
    (CoreInterface.init.handle ⟨"Float"⟩ ⟨"Opacity"⟩).1 0 5 (by decide) (by decide)).1

/-- C4: save/load round trip: loading a saved handle performs exactly
the registry's `handle` call on the persisted (typeID, nameID) pair —
the same result, state and events, hence a never-seen pair creates its
slot and fires the list-changed notification — and the loaded handle
compares equal to what `handle(h.typeID(), h.nameID())` then returns. -/
theorem c4_roundtrip (s : CoreInterface) (h : CoreInterfaceHandle) :
    loadState h.saveState s = s.handle h.m_typeID h.m_nameID ∧
    (loadState h.saveState s).1.beq
      ((loadState h.saveState s).2.1.handle h.m_typeID h.m_nameID).1 = true ∧
    (∀ t n : StringID, t.isValid = true → n.isValid = true →
      lookupChannel s t n = none →
      (s.handle t n).2.2 =
        s.channelListChangedCallbacks.map Event.channelListChanged) := by
  have hload : loadState h.saveState s = s.handle h.m_typeID h.m_nameID := rfl
  refine ⟨hload, ?_, ?_⟩
  · rw [hload]
    by_cases hv : (h.m_typeID.isValid && h.m_nameID.isValid) = true
    · obtain ⟨ht, hn⟩ := Bool.and_eq_true_iff.mp hv
      obtain ⟨p, hp, hreg⟩ := handle_result_registered s h.m_typeID h.m_nameID ht hn
      have hsecond := handle_exists_branch _ _ _ _ p ht hn hreg hp
      rw [hsecond]
      simp [CoreInterfaceHandle.beq]
    · have hb : (h.m_typeID.isValid && h.m_nameID.isValid) = false := by
        simpa using hv
      have h1 := handle_invalid_branch s h.m_typeID h.m_nameID hb
      rw [h1]
      have h2 := handle_invalid_branch s h.m_typeID h.m_nameID hb
      rw [h2]
      simp [CoreInterfaceHandle.beq]
  · intro t n ht hn hl
    rw [handle_create_branch s t n ht hn hl]

/-- Witness for C4: round trip of an unseen pair on the fresh registry
creates the slot and fires list-changed to the (empty) listener list. -/
theorem c4_roundtrip_witness :
    loadState (CoreInterfaceHandle.mk ⟨"Float"⟩ ⟨"Opacity"⟩ none).saveState
        CoreInterface.init =
      CoreInterface.init.handle ⟨"Float"⟩ ⟨"Opacity"⟩ ∧
    (CoreInterface.init.handle ⟨"Float"⟩ ⟨"Opacity"⟩).2.2 =
      CoreInterface.init.channelListChangedCallbacks.map Event.channelListChanged :=
  ⟨(c4_roundtrip CoreInterface.init ⟨⟨"Float"⟩, ⟨"Opacity"⟩, none⟩).1,
   (c4_roundtrip CoreInterface.init ⟨⟨"Float"⟩, ⟨"Opacity"⟩, none⟩).2.2
     ⟨"Float"⟩ ⟨"Opacity"⟩ (by decide) (by decide) rfl⟩

/-- C8 counterexample: with one listener registered for "Save", sending
payload 5 invokes the listener but the dispatcher emits no destruction
of the payload — the claim's "dispatcher owns and destroys the payload
immediately after the last listener returns" is false of the code. -/
theorem c8_counterexample :
    ((CoreInterface.init.registerSignalCallback 1 ⟨"Save"⟩).sendSignal ⟨"Save"⟩
        (some 5)).2 = [Event.signalFired 1 ⟨"Save"⟩ (some 5)] ∧
    Event.destroyData 5 ∉
      ((CoreInterface.init.registerSignalCallback 1 ⟨"Save"⟩).sendSignal ⟨"Save"⟩
        (some 5)).2 := by
  constructor
  · rfl
  · decide

/-- C8 amended: after the last listener returns the signal is forgotten —
no slot or channel state retains the payload, the call's events are
exactly the listener invocations, and no destruction step is performed
by the dispatcher (payload ownership stays with the caller convention). -/
theorem c8_sendSignal_forgets (s : CoreInterface) (t : StringID)
    (d : CoreInterfaceData) :
    (s.sendSignal t (some d)).1.channels = s.channels ∧
    (s.sendSignal t (some d)).1.payloadHeap = s.payloadHeap ∧
    (s.sendSignal t (some d)).2 =
      (lookupSig s t).map (fun c => Event.signalFired c t (some d)) ∧
    (∀ e ∈ (s.sendSignal t (some d)).2, ∀ x : CoreInterfaceData,
      e ≠ Event.destroyData x) := by
  refine ⟨rfl, rfl, rfl, ?_⟩
  intro e he x
  have h1 : (s.sendSignal t (some d)).2 =
      (lookupSig s t).map (fun c => Event.signalFired c t (some d)) := rfl
  rw [h1] at he
  rcases List.mem_map.mp he with ⟨c, _, rfl⟩
  intro hcontr
  exact Event.noConfusion hcontr

/-- Witness for C8's amended claim at a concrete listener and payload. -/
theorem c8_sendSignal_forgets_witness :
    Event.signalFired 1 ⟨"Save"⟩ (some 5) ≠ Event.destroyData 5 :=
  (c8_sendSignal_forgets (CoreInterface.init.registerSignalCallback 1 ⟨"Save"⟩)
      ⟨"Save"⟩ 5).2.2.2
    (Event.signalFired 1 ⟨"Save"⟩ (some 5)) (by decide) 5

/-- A heap cell reading null data still reads null after any `handle`
call: `handle` only allocates fresh cells holding null. -/
theorem heapCell_handle_none (s : CoreInterface) (t n : StringID) (p : Nat)
    (hc : mapGetD s.payloadHeap p none = none) :
    mapGetD (s.handle t n).2.1.payloadHeap p none = none := by
  by_cases hv : (t.isValid && n.isValid) = true
  · obtain ⟨ht, hn⟩ := Bool.and_eq_true_iff.mp hv
    have hcons : mapGetD ((s.nextPayload, none) :: s.payloadHeap) p none = none := by
      by_cases hp : p = s.nextPayload
      · simp [mapGetD, mapLookup, hp]
      · simpa [mapGetD, mapLookup, hp] using hc
    rcases hl : lookupChannel s t n with _ | h2
    · rw [handle_create_branch s t n ht hn hl]
      exact hcons
    · rcases hp2 : h2.m_payload with _ | p2
      · rw [handle_overwrite_branch s t n h2 ht hn hl hp2]
        exact hcons
      · rw [handle_exists_branch s t n h2 p2 ht hn hl hp2]
        exact hc
  · rw [handle_invalid_branch s t n (by simpa using hv)]
    exact hc

/-- A slot's heap cell reading null data still reads null after any
public operation that is not a `setChannelData` through a handle
referencing that slot. -/
theorem heapCell_step_none (s : CoreInterface) (op : Op)
    (h : CoreInterfaceHandle) (p : Nat) (hp : h.m_payload = some p)
    (hc : mapGetD s.payloadHeap p none = none)
    (hw : writesSlotOf h op = false) :
    mapGetD (step s op).payloadHeap p none = none := by
  cases op with
  | opHandle t' n' => exact heapCell_handle_none s t' n' p hc
  | opLoadState j => exact heapCell_handle_none s _ _ p hc
  | opSetChannelData h2 d =>
      rcases hm : h2.m_payload with _ | p'
      · simpa [step, CoreInterface.setChannelData, hm] using hc
      · have hne : ¬(p = p') := by
          intro hpe
          subst hpe
          simp [writesSlotOf, CoreInterfaceHandle.beq, hm, hp] at hw
        have hgoal : mapGetD (mapSet s.payloadHeap p' d) p none = none := by
          rw [mapGetD_mapSet, if_neg hne]
          exact hc
        simpa [step, CoreInterface.setChannelData, hm] using hgoal
  | opSendSignal t' d => exact hc
  | opRegisterListChanged c => exact hc
  | opUnregisterListChanged c => exact hc
  | opRegisterChannelChanged c => exact hc
  | opUnregisterChannelChanged c => exact hc
  | opRegisterSignal c t' => exact hc
  | opUnregisterSignal c t' =>
      by_cases hemp : (tpRemoveOne (mapGetD s.signalCallbacks t' []) c).isEmpty
      · simpa [step, CoreInterface.unregisterSignalCallback, hemp] using hc
      · simpa [step, CoreInterface.unregisterSignalCallback, hemp] using hc

/-- A slot's heap cell reading null data still reads null after any
sequence of public operations none of which writes that slot. -/
theorem heapCell_run_none (s : CoreInterface) (ops : List Op)
    (h : CoreInterfaceHandle) (p : Nat) (hp : h.m_payload = some p)
    (hc : mapGetD s.payloadHeap p none = none)
    (hw : ∀ op ∈ ops, writesSlotOf h op = false) :
    mapGetD (run s ops).payloadHeap p none = none := by
  induction ops generalizing s with
  | nil => exact hc
  | cons op rest ih =>
      exact ih (step s op)
        (heapCell_step_none s op h p hp hc (hw op (List.mem_cons_self _ _)))
        (fun o ho => hw o (List.mem_cons_of_mem _ ho))

/-- C10: `data()` never fails: through a handle referencing no slot it
reads null; and a freshly created channel holds no data until its first
write — after the creating `handle()` call, along any operation sequence
containing no `setChannelData` through a handle referencing that slot,
`data()` still reads null. -/
theorem c10_data_total (s : CoreInterface) (h : CoreInterfaceHandle)
    (t n : StringID) (ops : List Op) :
    (h.m_payload = none → h.data s = none) ∧
    (t.isValid = true → n.isValid = true → lookupChannel s t n = none →
      (∀ op ∈ ops, writesSlotOf (s.handle t n).1 op = false) →
      (s.handle t n).1.data (run (s.handle t n).2.1 ops) = none) := by
  constructor
  · intro hp
    simp [CoreInterfaceHandle.data, hp]
  · intro ht hn hl hw
    have hcreate := handle_create_branch s t n ht hn hl
    have hp1 : (s.handle t n).1.m_payload = some s.nextPayload := by rw [hcreate]
    have hc1 : mapGetD (s.handle t n).2.1.payloadHeap s.nextPayload none = none := by
      rw [hcreate]
      simp [mapGetD, mapLookup]
    have hrun := heapCell_run_none _ ops (s.handle t n).1 s.nextPayload hp1 hc1 hw
    simp only [CoreInterfaceHandle.data, hp1]
    exact hrun

/-- Witness for C10: the null handle; and a fresh "Float"/"Opacity"
channel read after creating another channel, writing that other channel
through its handle, writing through the null handle, and sending a
signal — all without writing the fresh slot. -/
theorem c10_data_total_witness :
    nullHandle.data CoreInterface.init = none ∧
    (CoreInterface.init.handle ⟨"Float"⟩ ⟨"Opacity"⟩).1.data
      (run (CoreInterface.init.handle ⟨"Float"⟩ ⟨"Opacity"⟩).2.1
        [Op.opHandle ⟨"Int"⟩ ⟨"Frame"⟩,
         Op.opSetChannelData ⟨⟨"Int"⟩, ⟨"Frame"⟩, some 1⟩ (some 9),
         Op.opSetChannelData nullHandle (some 4),
         Op.opSendSignal ⟨"Save"⟩ (some 3)]) = none :=
  ⟨(c10_data_total CoreInterface.init nullHandle ⟨"Float"⟩ ⟨"Opacity"⟩ []).1 rfl,
   (c10_data_total CoreInterface.init nullHandle ⟨"Float"⟩ ⟨"Opacity"⟩
      [Op.opHandle ⟨"Int"⟩ ⟨"Frame"⟩,
       Op.opSetChannelData ⟨⟨"Int"⟩, ⟨"Frame"⟩, some 1⟩ (some 9),
       Op.opSetChannelData nullHandle (some 4),
       Op.opSendSignal ⟨"Save"⟩ (some 3)]).2
     (by decide) (by decide) rfl (by decide)⟩

/-! Well-formedness of reachable registry states, for relating
`isValid()` (a key check) to slot-reference presence. -/

/-- A stored slot handle is well-formed: allocated payload, valid keys. -/
def WFHandle (h : CoreInterfaceHandle) : Prop :=
  h.m_payload.isSome = true ∧ h.m_typeID.isValid = true ∧ h.m_nameID.isValid = true

/-- Every handle stored in the slot map is well-formed. -/
def WF (s : CoreInterface) : Prop :=
  ∀ e ∈ s.channels, ∀ q ∈ e.2, WFHandle q.2

theorem mapLookup_some_mem {α β : Type} [DecidableEq α] (m : List (α × β))
    (k : α) (v : β) (h : mapLookup m k = some v) : (k, v) ∈ m := by
  induction m with
  | nil => simp [mapLookup] at h
  | cons x rest ih =>
      obtain ⟨k0, v0⟩ := x
      by_cases hk : k = k0
      · subst hk
        have h' : v0 = v := by simpa [mapLookup] using h
        subst h'
        exact List.mem_cons.mpr (Or.inl rfl)
      · simp only [mapLookup, if_neg hk] at h
        exact List.mem_cons.mpr (Or.inr (ih h))

/-- The slot map entry of a pair, when present, is well-formed in a
well-formed state. -/
theorem WF_lookupChannel (s : CoreInterface) (t n : StringID)
    (h2 : CoreInterfaceHandle) (hwf : WF s)
    (hl : lookupChannel s t n = some h2) : WFHandle h2 := by
  unfold lookupChannel at hl
  rcases hi : mapLookup s.channels t with _ | inner
  · rw [hi] at hl
    simp at hl
  · rw [hi] at hl
    have hl' : mapLookup inner n = some h2 := hl
    exact hwf _ (mapLookup_some_mem _ _ _ hi) _ (mapLookup_some_mem _ _ _ hl')

/-- `handle` preserves well-formedness of the slot map. -/
theorem WF_handle (s : CoreInterface) (t n : StringID) (hwf : WF s) :
    WF (s.handle t n).2.1 := by
  by_cases hv : (t.isValid && n.isValid) = true
  · obtain ⟨ht, hn⟩ := Bool.and_eq_true_iff.mp hv
    have hcreate : ∀ s' : CoreInterface,
        s' = { s with
          channels := mapSet s.channels t
            (mapSet (mapGetD s.channels t []) n ⟨t, n, some s.nextPayload⟩),
          payloadHeap := (s.nextPayload, none) :: s.payloadHeap,
          nextPayload := s.nextPayload + 1 } → WF s' := by
      intro s' hs'
      subst hs'
      intro e he q hq
      rcases mem_mapSet _ _ _ _ he with he1 | he1
      · subst he1
        rcases mem_mapSet _ _ _ _ hq with hq1 | hq1
        · subst hq1
          exact ⟨rfl, ht, hn⟩
        · rcases hi : mapLookup s.channels t with _ | inner
          · rw [show mapGetD s.channels t [] = [] by simp [mapGetD, hi]] at hq1
            simp at hq1
          · rw [show mapGetD s.channels t [] = inner by simp [mapGetD, hi]] at hq1
            exact hwf _ (mapLookup_some_mem _ _ _ hi) _ hq1
      · exact hwf _ he1 _ hq
    rcases hl : lookupChannel s t n with _ | h2
    · rw [handle_create_branch s t n ht hn hl]
      exact hcreate _ rfl
    · rcases hp2 : h2.m_payload with _ | p2
      · rw [handle_overwrite_branch s t n h2 ht hn hl hp2]
        exact hcreate _ rfl
      · rw [handle_exists_branch s t n h2 p2 ht hn hl hp2]
        exact hwf
  · rw [handle_invalid_branch s t n (by simpa using hv)]
    exact hwf

/-- Every public operation preserves well-formedness. -/
theorem WF_step (s : CoreInterface) (op : Op) (hwf : WF s) : WF (step s op) := by
  cases op with
  | opHandle t n => exact WF_handle s t n hwf
  | opLoadState j => exact WF_handle s _ _ hwf
  | opSetChannelData h' d =>
      rcases hm : h'.m_payload with _ | p'
      · simpa [step, CoreInterface.setChannelData, hm] using hwf
      · intro e he q hq
        refine hwf e ?_ q hq
        simpa [step, CoreInterface.setChannelData, hm] using he
  | opSendSignal t d =>
      intro e he q hq
      exact hwf e he q hq
  | opRegisterListChanged c =>
      intro e he q hq
      exact hwf e he q hq
  | opUnregisterListChanged c =>
      intro e he q hq
      exact hwf e he q hq
  | opRegisterChannelChanged c =>
      intro e he q hq
      exact hwf e he q hq
  | opUnregisterChannelChanged c =>
      intro e he q hq
      exact hwf e he q hq
  | opRegisterSignal c t =>
      intro e he q hq
      exact hwf e he q hq
  | opUnregisterSignal c t =>
      by_cases hemp : (tpRemoveOne (mapGetD s.signalCallbacks t []) c).isEmpty
      · intro e he q hq
        refine hwf e ?_ q hq
        simpa [step, CoreInterface.unregisterSignalCallback, hemp] using he
      · intro e he q hq
        refine hwf e ?_ q hq
        simpa [step, CoreInterface.unregisterSignalCallback, hemp] using he

/-- Well-formedness is preserved along any operation sequence. -/
theorem WF_run_aux (s : CoreInterface) (ops : List Op) (hwf : WF s) :
    WF (run s ops) := by
  induction ops generalizing s with
  | nil => exact hwf
  | cons op rest ih => exact ih (step s op) (WF_step s op hwf)

/-- Every state reached from the fresh registry by public operations is
well-formed. -/
theorem WF_run (ops : List Op) : WF (run CoreInterface.init ops) := by
  refine WF_run_aux _ ops ?_
  intro e he
  simp [CoreInterface.init] at he

/-- C9: along any public-operation history from a fresh registry, every
handle obtainable from the interface — the default handle, any
`handle()` result, any `loadState` result (copies being value copies) —
has `isValid()` true exactly when it references a real slot: the key
check and the slot-reference check never disagree. -/
theorem c9_isValid_agrees (ops : List Op) (t n : StringID) (j : JsonDoc) :
    (nullHandle.isValid = false ∧ nullHandle.m_payload = none) ∧
    ((run CoreInterface.init ops).handle t n).1.isValid =
      ((run CoreInterface.init ops).handle t n).1.m_payload.isSome ∧
    (loadState j (run CoreInterface.init ops)).1.isValid =
      (loadState j (run CoreInterface.init ops)).1.m_payload.isSome := by
  have hwf := WF_run ops
  have key : ∀ (s : CoreInterface) (t' n' : StringID), WF s →
      (s.handle t' n').1.isValid = (s.handle t' n').1.m_payload.isSome := by
    intro s t' n' hwfs
    by_cases hv : (t'.isValid && n'.isValid) = true
    · obtain ⟨ht, hn⟩ := Bool.and_eq_true_iff.mp hv
      rcases hl : lookupChannel s t' n' with _ | h2
      · rw [handle_create_branch s t' n' ht hn hl]
        simp [CoreInterfaceHandle.isValid, ht, hn]
      · rcases hp2 : h2.m_payload with _ | p2
        · rw [handle_overwrite_branch s t' n' h2 ht hn hl hp2]
          simp [CoreInterfaceHandle.isValid, ht, hn]
        · rw [handle_exists_branch s t' n' h2 p2 ht hn hl hp2]
          obtain ⟨hps, htv, hnv⟩ := WF_lookupChannel s t' n' h2 hwfs hl
          simp [CoreInterfaceHandle.isValid, htv, hnv, hps]
    · rw [handle_invalid_branch s t' n' (by simpa using hv)]
      rfl
  exact ⟨⟨by decide, rfl⟩, key _ t n hwf, key _ ⟨j.typeID⟩ ⟨j.nameID⟩ hwf⟩

end TpControl
